import Mathlib

/-!
Verification of `photutils/datasets/make.py`: synthetic-image generators
(Gaussian/Poisson noise images, 2D-Gaussian source images, random source
tables, and two canned example images).

Embedding conventions:
* floats are embedded as `ℚ`; `np.pi` is the exact rational value of the
  IEEE-754 double `np.pi`;
* a numpy `RandomState` is modelled as an explicit state (`RState`) with a
  deterministic next-state function; every sampling primitive threads the
  state explicitly, so sampling is a pure function of the state;
* the astropy `Gaussian2D` model evaluator is external to the repository, so
  the development is parametric in an arbitrary evaluator
  `g2d : Gaussian2D → ℚ → ℚ → ℚ` (parameters, x, y);
* Python exceptions are modelled by `Except`: `make_gaussian_sources` raises
  only `ValueError`s, carried as their message strings, while
  `make_noise_image` can also leak a `KeyError` out of `str.format` on its
  invalid-type path, so its errors carry the exception kind (`PyErr`).
-/

/-- The exact rational value of the IEEE-754 double `np.pi`
(3.141592653589793115997963...). -/
def np_pi : ℚ := 884279719003555 / 281474976710656

/-- State of a pseudo-random number generator (models `numpy.random.RandomState`). -/
structure RState where
  s : Nat
deriving DecidableEq, Repr

/-- Modelled from the spec: the deterministic next-state function of the
pseudo-random generator (numpy's generator is deterministic in its state);
a 64-bit linear-congruential step stands in for the Mersenne twister. -/
def lcgStep (s : Nat) : Nat :=
  (6364136223846793005 * s + 1442695040888963407) % (2 ^ 64)

/-- Modelled from the spec: `numpy.random.RandomState(seed)` — deterministic
initialization of a fresh generator from an integer seed. -/
def mkRState (seed : Nat) : RState := ⟨lcgStep (seed % 2 ^ 32)⟩

/-- Draw a raw 32-bit value and advance the generator state. -/
def nextU32 (st : RState) : Nat × RState :=
  ((st.s / 2 ^ 16) % 2 ^ 32, ⟨lcgStep st.s⟩)

/-- Modelled from the spec: one sample of `prng.uniform(lo, hi)` — a value in
`[lo, hi)` (for `lo < hi`), a deterministic function of the generator state. -/
def uniformDraw (lo hi : ℚ) (st : RState) : ℚ × RState :=
  let p := nextU32 st
  (lo + (hi - lo) * ((p.1 : ℚ) / 2 ^ 32), p.2)

/-- Modelled from the spec: one sample of `prng.normal(loc, scale)` — an affine
transform `loc + scale * z` of a standard-normal variate `z`, the variate being
a deterministic function of the generator state. -/
def normalDraw (loc scale : ℚ) (st : RState) : ℚ × RState :=
  let p := nextU32 st
  (loc + scale * ((p.1 : ℚ) / 2 ^ 31 - 1), p.2)

/-- Modelled from the spec: one sample of `prng.poisson(lam)` — a
Poisson-distributed variate with expectation `lam`, a deterministic function of
`lam` and the generator state. -/
def poissonDraw (lam : ℚ) (st : RState) : ℚ × RState :=
  let p := nextU32 st
  (lam * ((p.1 : ℚ) / 2 ^ 32) * 2, p.2)

/-- Draw `n` samples in sequence, threading the generator state
(models a numpy size-`n` vector draw). -/
def drawList (f : RState → ℚ × RState) : Nat → RState → List ℚ × RState
  | 0, st => ([], st)
  | n + 1, st =>
    let p := f st
    let rest := drawList f n p.2
    (p.1 :: rest.1, rest.2)

/-- Draw an `h × w` grid of samples row by row, threading the generator state
(models a numpy `size=(h, w)` draw). -/
def drawGrid (f : RState → ℚ × RState) : Nat → Nat → RState → List (List ℚ) × RState
  | 0, _, st => ([], st)
  | h + 1, w, st =>
    let p := drawList f w st
    let rest := drawGrid f h w p.2
    (p.1 :: rest.1, rest.2)

/-- The `random_state` argument accepted by the generators: an integer seed, an
existing generator, or `None`. -/
inductive RandomStateArg where
  | seed (s : Nat)
  | state (st : RState)
  | noneArg
deriving DecidableEq

/-- Modelled from the spec: `photutils.utils.check_random_state` (declared in
this repository outside the sources at hand) — an int seed creates a fresh
generator seeded with it, a generator instance is used as-is, and `None` falls
back to the ambient global numpy generator (here the explicit argument
`global_st`). -/
def check_random_state (global_st : RState) (random_state : RandomStateArg) : RState :=
  match random_state with
  | .seed s => mkRState s
  | .state st => st
  | .noneArg => global_st

/-- A 2D image optionally carrying an astropy unit: `unit = none` models a
plain `ndarray`, `unit = some u` models a `Quantity` with unit string `u`. -/
structure QImage where
  data : List (List ℚ)
  unit : Option String
deriving DecidableEq, Repr

/-- A Python exception escaping `make_noise_image`: an intended `ValueError`
with its message, or a `KeyError` leaking out of `str.format` (carrying the
offending replacement-field name). -/
inductive PyErr where
  | valueError (msg : String)
  | keyError (key : String)
deriving DecidableEq, Repr

/-- Python `str.format` applied to the source's invalid-type message literal.
The literal ends in the alternatives wrapped in braces, and those braces are
not escaped, so `format` parses them as a replacement field named
`\x22gaussian\x22, \x22poisson\x22` and raises `KeyError` with that name; the
intended `ValueError` message is never produced, whatever `type` was. -/
def invalid_type_format (_type : String) : PyErr :=
  PyErr.keyError "\x22gaussian\x22, \x22poisson\x22"

/-- `make_noise_image(image_shape, type, mean, stddev, unit, random_state)`:
a Gaussian- or Poisson-noise image.  `global_st` is the ambient global numpy
generator consulted only when `random_state` is `None`. -/
def make_noise_image (image_shape : Nat × Nat) (type : String) (mean stddev : Option ℚ)
    (unit : Option String) (random_state : RandomStateArg) (global_st : RState) :
    Except PyErr QImage :=
  match mean with
  | none => .error (.valueError "\x22mean\x22 must be input")
  | some m =>
    let prng := check_random_state global_st random_state
    if type = "gaussian" then
      match stddev with
      | none => .error (.valueError "\x22stddev\x22 must be input for Gaussian noise")
      | some sd => .ok ⟨(drawGrid (normalDraw m sd) image_shape.1 image_shape.2 prng).1, unit⟩
    else if type = "poisson" then
      .ok ⟨(drawGrid (poissonDraw m) image_shape.1 image_shape.2 prng).1, unit⟩
    else
      .error (invalid_type_format type)

/-- Per-pixel Poisson draws over one image row, threading the generator state. -/
def poissonRow : List ℚ → RState → List ℚ × RState
  | [], st => ([], st)
  | v :: vs, st =>
    let p := poissonDraw v st
    let rest := poissonRow vs p.2
    (p.1 :: rest.1, rest.2)

/-- Per-pixel Poisson draws over a whole image (`prng.poisson(image)`),
threading the generator state row by row. -/
def poissonGridOf : List (List ℚ) → RState → List (List ℚ) × RState
  | [], st => ([], st)
  | r :: rs, st =>
    let p := poissonRow r st
    let rest := poissonGridOf rs p.2
    (p.1 :: rest.1, rest.2)

/-- `make_poisson_noise(image, random_state)`: each output pixel is a Poisson
draw whose expectation is the corresponding input pixel; a `Quantity` input
keeps its unit. -/
def make_poisson_noise (image : QImage) (random_state : RandomStateArg)
    (global_st : RState) : QImage :=
  let prng := check_random_state global_st random_state
  ⟨(poissonGridOf image.data prng).1, image.unit⟩

/-- An all-zero `h × w` image (`np.zeros(image_shape)`). -/
def zeros (h w : Nat) : List (List ℚ) := List.replicate h (List.replicate w 0)

/-- Elementwise image addition (numpy `+` on equal-shape arrays). -/
def addImages (a b : List (List ℚ)) : List (List ℚ) :=
  List.zipWith (fun ra rb => List.zipWith (fun x y => x + y) ra rb) a b

/-- Pixel accessor: row `r`, column `c`, defaulting to `0` out of range. -/
def pixel (img : List (List ℚ)) (r c : Nat) : ℚ := (img.getD r []).getD c 0

/-- The image is a rectangular `h × w` array. -/
def HasShape (img : List (List ℚ)) (h w : Nat) : Prop :=
  img.length = h ∧ ∀ i, i < h → (img.getD i []).length = w

/-- An `h × w` image whose pixel at row `r`, column `c` is `f c r`
(the grids produced by `np.indices(image_shape)` give `y, x = r, c`). -/
def grid (f : Nat → Nat → ℚ) (h w : Nat) : List (List ℚ) :=
  (List.range h).map (fun r => (List.range w).map (fun c => f c r))

/-- Parameters of one `astropy.modeling.models.Gaussian2D` model. -/
structure Gaussian2D where
  amplitude : ℚ
  x_mean : ℚ
  y_mean : ℚ
  x_stddev : ℚ
  y_stddev : ℚ
  theta : ℚ
deriving DecidableEq, Repr

/-- A source table (`astropy.table.Table`): one row per source; the `flux` and
`amplitude` columns may each be absent (`none`), the rest are always present. -/
structure SourceTable where
  flux : Option (List ℚ)
  amplitude : Option (List ℚ)
  x_mean : List ℚ
  y_mean : List ℚ
  x_stddev : List ℚ
  y_stddev : List ℚ
  theta : List ℚ
deriving DecidableEq, Repr

/-- Number of rows of the table (`len(source_table)`; all columns of an astropy
table have this common length). -/
def nrows (t : SourceTable) : Nat := t.x_mean.length

/-- The per-source amplitude column chosen by `make_gaussian_sources`:
`flux / (2 * np.pi * x_stddev * y_stddev)` when a `flux` column is present,
else the `amplitude` column, else `none` (the error case). -/
def ampCol (t : SourceTable) : Option (List ℚ) :=
  match t.flux with
  | some f => some ((List.range f.length).map
      (fun i => f.getD i 0 / (2 * np_pi * t.x_stddev.getD i 0 * t.y_stddev.getD i 0)))
  | none => t.amplitude

/-- The `Gaussian2D` model built for each table row from the chosen amplitude
column `amp` and the per-row parameter columns. -/
def sourceModels (t : SourceTable) (amp : List ℚ) : List Gaussian2D :=
  (List.range (nrows t)).map (fun i =>
    ⟨amp.getD i 0, t.x_mean.getD i 0, t.y_mean.getD i 0,
     t.x_stddev.getD i 0, t.y_stddev.getD i 0, t.theta.getD i 0⟩)

/-- Modelled from the spec: one pixel of
`astropy.convolution.discretize_model(model, (0, w), (0, h), mode='oversample',
factor)` — the average of the model over a `factor × factor` subgrid of
equally-spaced sample points inside the pixel centred at `(c, r)`. -/
def oversamplePixel (g2d : Gaussian2D → ℚ → ℚ → ℚ) (m : Gaussian2D) (factor : Nat)
    (c r : Nat) : ℚ :=
  (∑ j ∈ Finset.range factor, ∑ k ∈ Finset.range factor,
      g2d m ((c : ℚ) - 1 / 2 + (2 * (k : ℚ) + 1) / (2 * (factor : ℚ)))
            ((r : ℚ) - 1 / 2 + (2 * (j : ℚ) + 1) / (2 * (factor : ℚ)))) / ((factor : ℚ) ^ 2)

/-- Modelled from the spec: `discretize_model` in `oversample` mode over the
pixel grid `x ∈ (0, w)`, `y ∈ (0, h)` — each pixel is the oversampled average
of the model over that pixel. -/
def discretize_model (g2d : Gaussian2D → ℚ → ℚ → ℚ) (m : Gaussian2D)
    (h w factor : Nat) : List (List ℚ) :=
  grid (fun c r => oversamplePixel g2d m factor c r) h w

/-- The pure image part of `make_gaussian_sources`: pick the amplitude column
(raising when neither `flux` nor `amplitude` is present), then sum one rendered
image per source into `np.zeros(image_shape)` — point samples at pixel centres
when `oversample == 1`, oversampled averages otherwise. -/
def gaussian_sources_image (g2d : Gaussian2D → ℚ → ℚ → ℚ) (image_shape : Nat × Nat)
    (source_table : SourceTable) (oversample : Nat) : Except String (List (List ℚ)) :=
  match ampCol source_table with
  | none => .error "either \x22amplitude\x22 or \x22flux\x22 must be columns in the input source_table"
  | some amp =>
    .ok ((sourceModels source_table amp).foldl
      (fun image m => addImages image
        (if oversample = 1 then grid (fun c r => g2d m c r) image_shape.1 image_shape.2
         else discretize_model g2d m image_shape.1 image_shape.2 oversample))
      (zeros image_shape.1 image_shape.2))

/-- The FITS header attached when `hdu=True` and `wcs=True`: either the simple
default WCS (with `CRPIX` at the image centre) or one built from the user's
`wcsheader` dict. -/
inductive FitsHeader where
  | simpleWCS (ctype1 ctype2 : String) (crpix1 crpix2 : Nat)
  | fromWCSDict (d : List (String × String))
deriving DecidableEq, Repr

/-- Result of `make_gaussian_sources`: either a bare image (`hdu=False`) or an
`ImageHDU` with an optional WCS header (`hdu=True`). -/
inductive GSOut where
  | plain (img : QImage)
  | hdu (img : QImage) (header : Option FitsHeader)
deriving DecidableEq, Repr

/-- The image data carried by either form of `make_gaussian_sources` output. -/
def GSOut.imgData : GSOut → List (List ℚ)
  | .plain qi => qi.data
  | .hdu qi _ => qi.data

/-- `make_gaussian_sources(image_shape, source_table, oversample, unit, hdu,
wcs, wcsheader)`: render the summed Gaussian-sources image, optionally attach
a unit, reject `wcs=True` without `hdu=True`, and wrap in an `ImageHDU` (with a
WCS header when requested) when `hdu=True`. -/
def make_gaussian_sources (g2d : Gaussian2D → ℚ → ℚ → ℚ) (image_shape : Nat × Nat)
    (source_table : SourceTable) (oversample : Nat) (unit : Option String)
    (hdu wcs : Bool) (wcsheader : Option (List (String × String))) :
    Except String GSOut :=
  match gaussian_sources_image g2d image_shape source_table oversample with
  | .error e => .error e
  | .ok image =>
    if wcs && !hdu then
      .error "wcs header only works with hdu output, use keyword \x27hdu=True\x27"
    else if hdu then
      let header : Option FitsHeader :=
        if wcs then
          some (match wcsheader with
            | none => .simpleWCS "RA---TAN" "DEC--TAN" (image_shape.2 / 2) (image_shape.1 / 2)
            | some d => .fromWCSDict d)
        else none
      .ok (.hdu ⟨image, unit⟩ header)
    else
      .ok (.plain ⟨image, unit⟩)

/-- `make_random_gaussians(n_sources, flux_range, xmean_range, ymean_range,
xstddev_range, ystddev_range, amplitude_range, random_state)`: a table of
`n_sources` random sources; a `flux` column is drawn from `flux_range` when
`amplitude_range` is `None`, otherwise an `amplitude` column is drawn from
`amplitude_range`; the remaining columns are drawn from their ranges and
`theta` from `[0, 2 * np.pi)`. -/
def make_random_gaussians (n_sources : Nat)
    (flux_range xmean_range ymean_range xstddev_range ystddev_range : ℚ × ℚ)
    (amplitude_range : Option (ℚ × ℚ)) (random_state : RandomStateArg)
    (global_st : RState) : SourceTable :=
  let prng := check_random_state global_st random_state
  let firstP :=
    match amplitude_range with
    | none => drawList (uniformDraw flux_range.1 flux_range.2) n_sources prng
    | some ar => drawList (uniformDraw ar.1 ar.2) n_sources prng
  let xmP := drawList (uniformDraw xmean_range.1 xmean_range.2) n_sources firstP.2
  let ymP := drawList (uniformDraw ymean_range.1 ymean_range.2) n_sources xmP.2
  let xsP := drawList (uniformDraw xstddev_range.1 xstddev_range.2) n_sources ymP.2
  let ysP := drawList (uniformDraw ystddev_range.1 ystddev_range.2) n_sources xsP.2
  let thP := drawList (uniformDraw 0 (2 * np_pi)) n_sources ysP.2
  match amplitude_range with
  | none => ⟨some firstP.1, none, xmP.1, ymP.1, xsP.1, ysP.1, thP.1⟩
  | some _ => ⟨none, some firstP.1, xmP.1, ymP.1, xsP.1, ysP.1, thP.1⟩

/-- The fixed 4-row amplitude table built inside `make_4gaussians_image`
(`theta` entries are `[145, 20, 0, 60] * np.pi / 180`). -/
def table4 : SourceTable :=
  ⟨none, some [50, 70, 150, 210], [160, 25, 150, 90], [70, 40, 25, 60],
   [76 / 5, 51 / 10, 3, 81 / 10], [13 / 5, 5 / 2, 3, 47 / 10],
   [145 * np_pi / 180, 20 * np_pi / 180, 0 * np_pi / 180, 60 * np_pi / 180]⟩

/-- `make_4gaussians_image(hdu, wcs, wcsheader)`: the fixed 4-source image over
shape `(100, 200)` plus Gaussian noise with mean 5, stddev 5, seed 12345; for
`hdu=True` the noise is added into the HDU's data. -/
def make_4gaussians_image (g2d : Gaussian2D → ℚ → ℚ → ℚ) (hdu wcs : Bool)
    (wcsheader : Option (List (String × String))) (global_st : RState) :
    Except PyErr GSOut :=
  match make_gaussian_sources g2d (100, 200) table4 1 none hdu wcs wcsheader with
  | .error e => .error (.valueError e)
  | .ok sources =>
    match make_noise_image (100, 200) "gaussian" (some 5) (some 5) none (.seed 12345) global_st with
    | .error e => .error e
    | .ok noise =>
      .ok (match sources with
        | .plain qi => .plain ⟨addImages qi.data noise.data, qi.unit⟩
        | .hdu qi hdr => .hdu ⟨addImages qi.data noise.data, qi.unit⟩ hdr)

/-- `make_100gaussians_image()`: 100 random sources (seed 12345) rendered over
shape `(300, 500)` plus Gaussian noise with mean 5, stddev 2, seed 12345. -/
def make_100gaussians_image (g2d : Gaussian2D → ℚ → ℚ → ℚ) (global_st : RState) :
    Except PyErr (List (List ℚ)) :=
  let table := make_random_gaussians 100 (500, 1000) (0, 500) (0, 300) (1, 5) (1, 5)
    none (.seed 12345) global_st
  match make_gaussian_sources g2d (300, 500) table 1 none false false none with
  | .error e => .error (.valueError e)
  | .ok image1 =>
    match make_noise_image (300, 500) "gaussian" (some 5) (some 2) none (.seed 12345) global_st with
    | .error e => .error e
    | .ok noise => .ok (addImages image1.imgData noise.data)

/-- Claim C2: with a fixed integer seed `s` passed as `random_state`, two
separate calls — whatever the ambient global generator state is at each call —
produce identical outputs: `make_noise_image` the identical noise image,
`make_poisson_noise` the identical noise image, `make_random_gaussians` the
identical source table. -/
theorem seeded_calls_deterministic :
    (∀ (image_shape : Nat × Nat) (type : String) (mean stddev : Option ℚ)
        (unit : Option String) (s : Nat) (g1 g2 : RState),
      make_noise_image image_shape type mean stddev unit (.seed s) g1
        = make_noise_image image_shape type mean stddev unit (.seed s) g2)
    ∧ (∀ (image : QImage) (s : Nat) (g1 g2 : RState),
      make_poisson_noise image (.seed s) g1 = make_poisson_noise image (.seed s) g2)
    ∧ (∀ (n : Nat) (fr xr yr xsr ysr : ℚ × ℚ) (ar : Option (ℚ × ℚ)) (s : Nat)
        (g1 g2 : RState),
      make_random_gaussians n fr xr yr xsr ysr ar (.seed s) g1
        = make_random_gaussians n fr xr yr xsr ysr ar (.seed s) g2) := by
  refine ⟨?_, ?_, ?_⟩
  · intro sh ty mean sd u s g1 g2
    cases mean <;> rfl
  · intro img s g1 g2
    rfl
  · intro n fr xr yr xsr ysr ar s g1 g2
    cases ar <;> rfl

/-- Claim C9: with `type='poisson'` and `mean` supplied, the output of
`make_noise_image` does not depend on `stddev` (including `stddev=None`): it is
the Poisson-draw image with expectation `mean` for the chosen generator. -/
theorem poisson_ignores_stddev
    (image_shape : Nat × Nat) (m : ℚ) (stddev1 stddev2 : Option ℚ)
    (unit : Option String) (rs : RandomStateArg) (g : RState) :
    make_noise_image image_shape "poisson" (some m) stddev1 unit rs g
      = make_noise_image image_shape "poisson" (some m) stddev2 unit rs g
    ∧ make_noise_image image_shape "poisson" (some m) stddev1 unit rs g
      = .ok ⟨(drawGrid (poissonDraw m) image_shape.1 image_shape.2
              (check_random_state g rs)).1, unit⟩ :=
  ⟨rfl, rfl⟩

/-- Claim C3 (code bug): for an unrecognized `type` with `mean` supplied, the
program fails immediately, but not as claimed — building the message with
`str.format` on a literal whose closing braces are unescaped raises `KeyError`
with the constant replacement-field name `\x22gaussian\x22, \x22poisson\x22`,
so the intended descriptive `ValueError` (which would name the invalid type
and the accepted alternatives) is never raised. -/
theorem make_noise_image_invalid_type_keyerror
    (image_shape : Nat × Nat) (type : String) (m : ℚ) (stddev : Option ℚ)
    (unit : Option String) (rs : RandomStateArg) (g : RState)
    (h1 : type ≠ "gaussian") (h2 : type ≠ "poisson") :
    make_noise_image image_shape type (some m) stddev unit rs g
      = .error (PyErr.keyError "\x22gaussian\x22, \x22poisson\x22")
    ∧ ∀ msg : String, make_noise_image image_shape type (some m) stddev unit rs g
        ≠ .error (PyErr.valueError msg) := by
  have h : make_noise_image image_shape type (some m) stddev unit rs g
      = .error (PyErr.keyError "\x22gaussian\x22, \x22poisson\x22") := by
    simp [make_noise_image, invalid_type_format, h1, h2]
  refine ⟨h, fun msg hc => ?_⟩
  rw [h] at hc
  simp at hc

/-- Witness for C3 at the concrete invalid type `uniform`. -/
theorem make_noise_image_invalid_type_keyerror_witness :
    make_noise_image (2, 2) "uniform" (some 1) none none (.seed 0) ⟨0⟩
      = .error (PyErr.keyError "\x22gaussian\x22, \x22poisson\x22") :=
  (make_noise_image_invalid_type_keyerror (2, 2) "uniform" 1 none none (.seed 0) ⟨0⟩
    (by decide) (by decide)).1

/-- Claim C4: `make_noise_image` raises on missing required parameters —
always when `mean=None`, and when `type='gaussian'` with `stddev=None`; for
`type='poisson'` with `mean` supplied, `stddev` is not required and an image is
returned. -/
theorem make_noise_image_missing_params :
    (∀ (image_shape : Nat × Nat) (type : String) (stddev : Option ℚ)
        (unit : Option String) (rs : RandomStateArg) (g : RState),
      make_noise_image image_shape type none stddev unit rs g
        = .error (PyErr.valueError "\x22mean\x22 must be input"))
    ∧ (∀ (image_shape : Nat × Nat) (m : ℚ) (unit : Option String)
        (rs : RandomStateArg) (g : RState),
      make_noise_image image_shape "gaussian" (some m) none unit rs g
        = .error (PyErr.valueError "\x22stddev\x22 must be input for Gaussian noise"))
    ∧ (∀ (image_shape : Nat × Nat) (m : ℚ) (unit : Option String)
        (rs : RandomStateArg) (g : RState),
      ∃ img, make_noise_image image_shape "poisson" (some m) none unit rs g = .ok img) :=
  ⟨fun _ _ _ _ _ _ => rfl, fun _ _ _ _ _ => rfl, fun _ _ _ _ _ => ⟨_, rfl⟩⟩

/-- Claim C5: a source table with neither a `flux` nor an `amplitude` column
makes `make_gaussian_sources` raise a `ValueError`; no image is produced. -/
theorem make_gaussian_sources_missing_columns
    (g2d : Gaussian2D → ℚ → ℚ → ℚ) (image_shape : Nat × Nat) (t : SourceTable)
    (oversample : Nat) (unit : Option String) (hdu wcs : Bool)
    (wcsheader : Option (List (String × String)))
    (hf : t.flux = none) (ha : t.amplitude = none) :
    make_gaussian_sources g2d image_shape t oversample unit hdu wcs wcsheader
      = .error "either \x22amplitude\x22 or \x22flux\x22 must be columns in the input source_table" := by
  simp [make_gaussian_sources, gaussian_sources_image, ampCol, hf, ha]

/-- Witness for C5 at a concrete empty-column table. -/
theorem make_gaussian_sources_missing_columns_witness :
    make_gaussian_sources (fun _ _ _ => 0) (2, 2) ⟨none, none, [], [], [], [], []⟩
        1 none false false none
      = .error "either \x22amplitude\x22 or \x22flux\x22 must be columns in the input source_table" :=
  make_gaussian_sources_missing_columns (fun _ _ _ => 0) (2, 2)
    ⟨none, none, [], [], [], [], []⟩ 1 none false false none rfl rfl

/-- Claim C8: when a `flux` column is present, the per-source model amplitude
is `flux / (2 * np.pi * x_stddev * y_stddev)`, and any `amplitude` column is
ignored: two tables equal except for their `amplitude` column give identical
`make_gaussian_sources` outputs. -/
theorem flux_overrides_amplitude
    (g2d : Gaussian2D → ℚ → ℚ → ℚ) (image_shape : Nat × Nat) (oversample : Nat)
    (unit : Option String) (hdu wcs : Bool) (wcsheader : Option (List (String × String)))
    (fl : List ℚ) (a1 a2 : Option (List ℚ)) (xm ym xs ys th : List ℚ) :
    make_gaussian_sources g2d image_shape ⟨some fl, a1, xm, ym, xs, ys, th⟩
        oversample unit hdu wcs wcsheader
      = make_gaussian_sources g2d image_shape ⟨some fl, a2, xm, ym, xs, ys, th⟩
        oversample unit hdu wcs wcsheader
    ∧ ampCol ⟨some fl, a1, xm, ym, xs, ys, th⟩
      = some ((List.range fl.length).map
          (fun i => fl.getD i 0 / (2 * np_pi * xs.getD i 0 * ys.getD i 0))) :=
  ⟨rfl, rfl⟩

/-- Claim C10: with a valid source table, `wcs=True` together with `hdu=False`
makes `make_gaussian_sources` raise a `ValueError`, and an `ImageHDU` output
only ever arises from a call with `hdu=True`. -/
theorem wcs_requires_hdu
    (g2d : Gaussian2D → ℚ → ℚ → ℚ) (image_shape : Nat × Nat) (t : SourceTable)
    (oversample : Nat) (unit : Option String) (wcsheader : Option (List (String × String)))
    (amp : List ℚ) (hamp : ampCol t = some amp) :
    make_gaussian_sources g2d image_shape t oversample unit false true wcsheader
      = .error "wcs header only works with hdu output, use keyword \x27hdu=True\x27"
    ∧ ∀ (hdu wcs : Bool) (qi : QImage) (hdr : Option FitsHeader),
        make_gaussian_sources g2d image_shape t oversample unit hdu wcs wcsheader
          = .ok (GSOut.hdu qi hdr) → hdu = true := by
  constructor
  · simp [make_gaussian_sources, gaussian_sources_image, hamp]
  · intro hdu wcs qi hdr h
    cases hdu
    · cases wcs <;> simp [make_gaussian_sources, gaussian_sources_image, hamp] at h
    · rfl

/-- Witness for C10 at a concrete one-source table. -/
theorem wcs_requires_hdu_witness :
    make_gaussian_sources (fun _ _ _ => 0) (1, 1) ⟨none, some [1], [0], [0], [1], [1], [0]⟩
        1 none false true none
      = .error "wcs header only works with hdu output, use keyword \x27hdu=True\x27" :=
  (wcs_requires_hdu (fun _ _ _ => 0) (1, 1) ⟨none, some [1], [0], [0], [1], [1], [0]⟩
    1 none none [1] rfl).1

/-- The raw 32-bit draw is below `2^32`. -/
lemma nextU32_lt (st : RState) : (nextU32 st).1 < 2 ^ 32 :=
  Nat.mod_lt _ (by norm_num)

/-- A uniform draw over `(lo, hi)` with `lo < hi` lands in `[lo, hi)`. -/
lemma uniformDraw_bounds (lo hi : ℚ) (st : RState) (h : lo < hi) :
    lo ≤ (uniformDraw lo hi st).1 ∧ (uniformDraw lo hi st).1 < hi := by
  have hq0 : (0 : ℚ) ≤ ((nextU32 st).1 : ℚ) / 2 ^ 32 := by positivity
  have hq1 : ((nextU32 st).1 : ℚ) / 2 ^ 32 < 1 := by
    rw [div_lt_one (by norm_num)]
    exact_mod_cast nextU32_lt st
  have hmul0 : 0 ≤ (hi - lo) * (((nextU32 st).1 : ℚ) / 2 ^ 32) :=
    mul_nonneg (sub_nonneg.mpr h.le) hq0
  have hmul1 : (hi - lo) * (((nextU32 st).1 : ℚ) / 2 ^ 32) < (hi - lo) * 1 :=
    mul_lt_mul_of_pos_left hq1 (sub_pos.mpr h)
  constructor
  · simp only [uniformDraw]
    linarith
  · simp only [uniformDraw]
    linarith

/-- A sequence of draws has the requested length. -/
lemma drawList_length (f : RState → ℚ × RState) :
    ∀ (n : Nat) (st : RState), (drawList f n st).1.length = n := by
  intro n
  induction n with
  | zero => intro st; rfl
  | succ k ih => intro st; simp [drawList, ih]

/-- Any pointwise property of the sampler holds of every drawn value. -/
lemma drawList_forall (f : RState → ℚ × RState) (P : ℚ → Prop)
    (hf : ∀ st, P (f st).1) :
    ∀ (n : Nat) (st : RState), ∀ v ∈ (drawList f n st).1, P v := by
  intro n
  induction n with
  | zero =>
    intro st v hv
    simp [drawList] at hv
  | succ k ih =>
    intro st v hv
    simp only [drawList, List.mem_cons] at hv
    rcases hv with hv | hv
    · exact hv ▸ hf st
    · exact ih _ v hv

/-- Every value of a uniform column over `(lo, hi)` with `lo < hi` lies in
`[lo, hi)`. -/
lemma drawList_uniform_mem (lo hi : ℚ) (h : lo < hi) (n : Nat) (st : RState) :
    ∀ v ∈ (drawList (uniformDraw lo hi) n st).1, lo ≤ v ∧ v < hi :=
  drawList_forall _ _ (fun st' => uniformDraw_bounds lo hi st' h) n st

/-- `2 * np.pi` is positive. -/
lemma two_np_pi_pos : (0 : ℚ) < 2 * np_pi := by norm_num [np_pi]

/-- Claim C6: `make_random_gaussians` returns a table with exactly `n_sources`
rows; the columns are `x_mean`, `y_mean`, `x_stddev`, `y_stddev`, `theta` plus
exactly one of `flux` (when `amplitude_range` is `None`) or `amplitude`
(otherwise, `flux_range` then being ignored); each column's values are drawn
uniformly within its `(lower, upper)` bounds and `theta` within `[0, 2*np.pi)`. -/
theorem make_random_gaussians_spec
    (n : Nat) (fr xr yr xsr ysr : ℚ × ℚ) (ar : Option (ℚ × ℚ))
    (rs : RandomStateArg) (g : RState)
    (hxr : xr.1 < xr.2) (hyr : yr.1 < yr.2) (hxsr : xsr.1 < xsr.2) (hysr : ysr.1 < ysr.2) :
    ((make_random_gaussians n fr xr yr xsr ysr ar rs g).x_mean.length = n
      ∧ (make_random_gaussians n fr xr yr xsr ysr ar rs g).y_mean.length = n
      ∧ (make_random_gaussians n fr xr yr xsr ysr ar rs g).x_stddev.length = n
      ∧ (make_random_gaussians n fr xr yr xsr ysr ar rs g).y_stddev.length = n
      ∧ (make_random_gaussians n fr xr yr xsr ysr ar rs g).theta.length = n)
    ∧ (ar = none →
        (make_random_gaussians n fr xr yr xsr ysr ar rs g).amplitude = none
        ∧ ∃ f, (make_random_gaussians n fr xr yr xsr ysr ar rs g).flux = some f
            ∧ f.length = n
            ∧ (fr.1 < fr.2 → ∀ v ∈ f, fr.1 ≤ v ∧ v < fr.2))
    ∧ (∀ ap, ar = some ap →
        (make_random_gaussians n fr xr yr xsr ysr ar rs g).flux = none
        ∧ (∃ a, (make_random_gaussians n fr xr yr xsr ysr ar rs g).amplitude = some a
            ∧ a.length = n
            ∧ (ap.1 < ap.2 → ∀ v ∈ a, ap.1 ≤ v ∧ v < ap.2))
        ∧ ∀ fr2 : ℚ × ℚ, make_random_gaussians n fr xr yr xsr ysr (some ap) rs g
            = make_random_gaussians n fr2 xr yr xsr ysr (some ap) rs g)
    ∧ (∀ v ∈ (make_random_gaussians n fr xr yr xsr ysr ar rs g).x_mean,
        xr.1 ≤ v ∧ v < xr.2)
    ∧ (∀ v ∈ (make_random_gaussians n fr xr yr xsr ysr ar rs g).y_mean,
        yr.1 ≤ v ∧ v < yr.2)
    ∧ (∀ v ∈ (make_random_gaussians n fr xr yr xsr ysr ar rs g).x_stddev,
        xsr.1 ≤ v ∧ v < xsr.2)
    ∧ (∀ v ∈ (make_random_gaussians n fr xr yr xsr ysr ar rs g).y_stddev,
        ysr.1 ≤ v ∧ v < ysr.2)
    ∧ (∀ v ∈ (make_random_gaussians n fr xr yr xsr ysr ar rs g).theta,
        0 ≤ v ∧ v < 2 * np_pi) := by
  refine ⟨⟨?_, ?_, ?_, ?_, ?_⟩, ?_, ?_, ?_, ?_, ?_, ?_, ?_⟩
  · cases ar <;> simp [make_random_gaussians, drawList_length]
  · cases ar <;> simp [make_random_gaussians, drawList_length]
  · cases ar <;> simp [make_random_gaussians, drawList_length]
  · cases ar <;> simp [make_random_gaussians, drawList_length]
  · cases ar <;> simp [make_random_gaussians, drawList_length]
  · rintro rfl
    refine ⟨rfl, _, rfl, drawList_length _ _ _, fun hfr => ?_⟩
    exact drawList_uniform_mem _ _ hfr _ _
  · rintro ap rfl
    refine ⟨rfl, ⟨_, rfl, drawList_length _ _ _, fun hap => ?_⟩, fun fr2 => rfl⟩
    exact drawList_uniform_mem _ _ hap _ _
  · cases ar <;>
      (simp only [make_random_gaussians]
       exact drawList_uniform_mem _ _ hxr _ _)
  · cases ar <;>
      (simp only [make_random_gaussians]
       exact drawList_uniform_mem _ _ hyr _ _)
  · cases ar <;>
      (simp only [make_random_gaussians]
       exact drawList_uniform_mem _ _ hxsr _ _)
  · cases ar <;>
      (simp only [make_random_gaussians]
       exact drawList_uniform_mem _ _ hysr _ _)
  · cases ar <;>
      (simp only [make_random_gaussians]
       exact drawList_uniform_mem _ _ two_np_pi_pos _ _)

/-- Witness for C6 at a concrete call with two sources. -/
theorem make_random_gaussians_spec_witness :
    (make_random_gaussians 2 (0, 1) (0, 1) (0, 1) (1, 2) (1, 2) none (.seed 7) ⟨0⟩).x_mean.length = 2
      ∧ (make_random_gaussians 2 (0, 1) (0, 1) (0, 1) (1, 2) (1, 2) none (.seed 7) ⟨0⟩).y_mean.length = 2
      ∧ (make_random_gaussians 2 (0, 1) (0, 1) (0, 1) (1, 2) (1, 2) none (.seed 7) ⟨0⟩).x_stddev.length = 2
      ∧ (make_random_gaussians 2 (0, 1) (0, 1) (0, 1) (1, 2) (1, 2) none (.seed 7) ⟨0⟩).y_stddev.length = 2
      ∧ (make_random_gaussians 2 (0, 1) (0, 1) (0, 1) (1, 2) (1, 2) none (.seed 7) ⟨0⟩).theta.length = 2 :=
  (make_random_gaussians_spec 2 (0, 1) (0, 1) (0, 1) (1, 2) (1, 2) none (.seed 7) ⟨0⟩
    (by norm_num) (by norm_num) (by norm_num) (by norm_num)).1

/-- The zero image is rectangular with every row of width `w`. -/
lemma zeros_shape (h w : Nat) : HasShape (zeros h w) h w := by
  refine ⟨by simp [zeros], fun i hi => ?_⟩
  rw [zeros, List.getD_eq_getElem _ _ (by simpa using hi)]
  simp

/-- Every pixel of the zero image is `0` (also out of range, by the default). -/
lemma pixel_zeros (h w r c : Nat) : pixel (zeros h w) r c = 0 := by
  unfold pixel
  rcases Nat.lt_or_ge r h with hr | hr
  · have hr' : r < (zeros h w).length := by simpa [zeros] using hr
    rw [List.getD_eq_getElem (zeros h w) [] hr']
    have hrow : (zeros h w)[r] = List.replicate w (0 : ℚ) := by simp [zeros]
    rw [hrow]
    rcases Nat.lt_or_ge c w with hc | hc
    · have hc' : c < (List.replicate w (0 : ℚ)).length := by simpa using hc
      rw [List.getD_eq_getElem (List.replicate w (0 : ℚ)) 0 hc']
      simp
    · rw [List.getD_eq_default (List.replicate w (0 : ℚ)) 0 (by simpa using hc)]
  · rw [List.getD_eq_default (zeros h w) [] (by simpa [zeros] using hr)]
    simp

/-- A generated grid is rectangular of the requested shape. -/
lemma grid_shape (f : Nat → Nat → ℚ) (h w : Nat) : HasShape (grid f h w) h w := by
  refine ⟨by simp [grid], fun i hi => ?_⟩
  rw [grid, List.getD_eq_getElem _ _ (by simpa using hi)]
  simp

/-- In range, a generated grid holds exactly the generating function's values. -/
lemma pixel_grid (f : Nat → Nat → ℚ) (h w r c : Nat) (hr : r < h) (hc : c < w) :
    pixel (grid f h w) r c = f c r := by
  unfold pixel
  have hr' : r < (grid f h w).length := by simpa [grid] using hr
  rw [List.getD_eq_getElem (grid f h w) [] hr']
  have hrow : (grid f h w)[r] = (List.range w).map (fun c => f c r) := by
    simp [grid]
  rw [hrow]
  have hc' : c < ((List.range w).map (fun c => f c r)).length := by simpa using hc
  rw [List.getD_eq_getElem ((List.range w).map (fun c => f c r)) 0 hc']
  simp

/-- Adding two images of the same shape keeps that shape. -/
lemma addImages_shape {a b : List (List ℚ)} {h w : Nat}
    (ha : HasShape a h w) (hb : HasShape b h w) : HasShape (addImages a b) h w := by
  have hlen : (addImages a b).length = h := by
    simp [addImages, ha.1, hb.1]
  refine ⟨hlen, fun i hi => ?_⟩
  have hia : i < a.length := by rw [ha.1]; exact hi
  have hib : i < b.length := by rw [hb.1]; exact hi
  have hiab : i < (addImages a b).length := by rw [hlen]; exact hi
  rw [List.getD_eq_getElem (addImages a b) [] hiab]
  have hzip : (addImages a b)[i] = List.zipWith (fun x y => x + y) a[i] b[i] := by
    simp only [addImages]
    exact List.getElem_zipWith
  rw [hzip]
  have hra : a[i].length = w := by
    have := ha.2 i hi
    rwa [List.getD_eq_getElem a [] hia] at this
  have hrb : b[i].length = w := by
    have := hb.2 i hi
    rwa [List.getD_eq_getElem b [] hib] at this
  simp [hra, hrb]

/-- In range, pixelwise: adding images of a common shape adds pixels. -/
lemma pixel_addImages {a b : List (List ℚ)} {h w : Nat}
    (ha : HasShape a h w) (hb : HasShape b h w) {r c : Nat} (hr : r < h) (hc : c < w) :
    pixel (addImages a b) r c = pixel a r c + pixel b r c := by
  have hra : r < a.length := by rw [ha.1]; exact hr
  have hrb : r < b.length := by rw [hb.1]; exact hr
  have hab : (addImages a b).length = h := by simp [addImages, ha.1, hb.1]
  have hrab : r < (addImages a b).length := by rw [hab]; exact hr
  have hca : c < a[r].length := by
    have := ha.2 r hr
    rw [List.getD_eq_getElem a [] hra] at this
    rw [this]; exact hc
  have hcb : c < b[r].length := by
    have := hb.2 r hr
    rw [List.getD_eq_getElem b [] hrb] at this
    rw [this]; exact hc
  unfold pixel
  rw [List.getD_eq_getElem (addImages a b) [] hrab, List.getD_eq_getElem a [] hra,
    List.getD_eq_getElem b [] hrb]
  have hzip : (addImages a b)[r] = List.zipWith (fun x y => x + y) a[r] b[r] := by
    simp only [addImages]
    exact List.getElem_zipWith
  rw [hzip]
  have hcz : c < (List.zipWith (fun x y : ℚ => x + y) a[r] b[r]).length := by
    rw [List.length_zipWith]
    exact Nat.lt_min.mpr ⟨hca, hcb⟩
  rw [List.getD_eq_getElem (List.zipWith (fun x y : ℚ => x + y) a[r] b[r]) 0 hcz]
  rw [List.getElem_zipWith, List.getD_eq_getElem a[r] 0 hca,
    List.getD_eq_getElem b[r] 0 hcb]

/-- Folding image additions over a list of sources keeps the shape. -/
lemma foldl_add_shape {h w : Nat} (render : Gaussian2D → List (List ℚ))
    (hrend : ∀ m, HasShape (render m) h w) :
    ∀ (ms : List Gaussian2D) (init : List (List ℚ)), HasShape init h w →
      HasShape (ms.foldl (fun image m => addImages image (render m)) init) h w := by
  intro ms
  induction ms with
  | nil => intro init hinit; exact hinit
  | cons m ms ih =>
    intro init hinit
    exact ih _ (addImages_shape hinit (hrend m))

/-- In range, a pixel of the folded sum is the initial pixel plus the sum of
the corresponding pixels of each rendered source. -/
lemma pixel_foldl_add {h w : Nat} (render : Gaussian2D → List (List ℚ))
    (hrend : ∀ m, HasShape (render m) h w) {r c : Nat} (hr : r < h) (hc : c < w) :
    ∀ (ms : List Gaussian2D) (init : List (List ℚ)), HasShape init h w →
      pixel (ms.foldl (fun image m => addImages image (render m)) init) r c
        = pixel init r c + (ms.map (fun m => pixel (render m) r c)).sum := by
  intro ms
  induction ms with
  | nil => intro init hinit; simp
  | cons m ms ih =>
    intro init hinit
    have step := ih (addImages init (render m)) (addImages_shape hinit (hrend m))
    simp only [List.foldl_cons] at step ⊢
    rw [step, pixel_addImages hinit (hrend m) hr hc]
    simp [add_assoc]

/-- Claim C1: for any image shape and any source table with the required
columns, `make_gaussian_sources` returns a 2D array of exactly that shape;
with `oversample = 1` each pixel is the sum over table rows of the row's
`Gaussian2D` model point-sampled at the pixel centre, and with
`oversample ≠ 1` each pixel is instead the sum of the models' oversampled
averages over the pixel. -/
theorem make_gaussian_sources_shape_pixels
    (g2d : Gaussian2D → ℚ → ℚ → ℚ) (image_shape : Nat × Nat) (t : SourceTable)
    (oversample : Nat) (unit : Option String) (wcsheader : Option (List (String × String)))
    (amp : List ℚ) (hamp : ampCol t = some amp) :
    ∃ img,
      make_gaussian_sources g2d image_shape t oversample unit false false wcsheader
        = .ok (GSOut.plain ⟨img, unit⟩)
      ∧ HasShape img image_shape.1 image_shape.2
      ∧ ∀ r c, r < image_shape.1 → c < image_shape.2 →
          (oversample = 1 →
            pixel img r c = ((sourceModels t amp).map (fun m => g2d m c r)).sum)
          ∧ (oversample ≠ 1 →
            pixel img r c
              = ((sourceModels t amp).map
                  (fun m => oversamplePixel g2d m oversample c r)).sum) := by
  have hrshape : ∀ m : Gaussian2D, HasShape
      (if oversample = 1 then grid (fun c r => g2d m c r) image_shape.1 image_shape.2
       else discretize_model g2d m image_shape.1 image_shape.2 oversample)
      image_shape.1 image_shape.2 := by
    intro m
    by_cases h1 : oversample = 1
    · rw [if_pos h1]
      exact grid_shape _ _ _
    · rw [if_neg h1]
      simp only [discretize_model]
      exact grid_shape _ _ _
  refine ⟨(sourceModels t amp).foldl
      (fun image m => addImages image
        (if oversample = 1 then grid (fun c r => g2d m c r) image_shape.1 image_shape.2
         else discretize_model g2d m image_shape.1 image_shape.2 oversample))
      (zeros image_shape.1 image_shape.2), ?_, ?_, ?_⟩
  · simp [make_gaussian_sources, gaussian_sources_image, hamp]
  · exact foldl_add_shape _ hrshape _ _ (zeros_shape _ _)
  · intro r c hr hc
    constructor
    · intro h1
      rw [pixel_foldl_add _ hrshape hr hc _ _ (zeros_shape _ _), pixel_zeros, zero_add]
      congr 1
      apply List.map_congr_left
      intro m _
      rw [if_pos h1]
      exact pixel_grid _ _ _ _ _ hr hc
    · intro h1
      rw [pixel_foldl_add _ hrshape hr hc _ _ (zeros_shape _ _), pixel_zeros, zero_add]
      congr 1
      apply List.map_congr_left
      intro m _
      rw [if_neg h1]
      simp only [discretize_model]
      exact pixel_grid _ _ _ _ _ hr hc

/-- A concrete computable stand-in for the external `Gaussian2D` evaluator,
used to instantiate the parametric theorems on explicit inputs. -/
def g2dTest : Gaussian2D → ℚ → ℚ → ℚ := fun m x y => m.amplitude + x + y

/-- Witness for C1 at a concrete one-source table over a 2×2 grid. -/
theorem make_gaussian_sources_shape_pixels_witness :
    ∃ img,
      make_gaussian_sources g2dTest (2, 2)
          ⟨none, some [2], [0], [0], [1], [1], [0]⟩ 1 none false false none
        = .ok (GSOut.plain ⟨img, none⟩)
      ∧ HasShape img (2, 2).1 (2, 2).2
      ∧ ∀ r c, r < (2, 2).1 → c < (2, 2).2 →
          (1 = 1 →
            pixel img r c
              = ((sourceModels ⟨none, some [2], [0], [0], [1], [1], [0]⟩ [2]).map
                  (fun m => g2dTest m c r)).sum)
          ∧ (1 ≠ 1 →
            pixel img r c
              = ((sourceModels ⟨none, some [2], [0], [0], [1], [1], [0]⟩ [2]).map
                  (fun m => oversamplePixel g2dTest m 1 c r)).sum) :=
  make_gaussian_sources_shape_pixels g2dTest (2, 2)
    ⟨none, some [2], [0], [0], [1], [1], [0]⟩ 1 none none [2] rfl

set_option maxRecDepth 8192 in
/-- Claim C7: the two example images are exactly canned compositions of the
other functions: `make_4gaussians_image` is `make_gaussian_sources` over shape
`(100, 200)` on its fixed 4-row table plus
`make_noise_image((100,200), 'gaussian', mean=5, stddev=5, seed 12345)`, and
`make_100gaussians_image` is `make_gaussian_sources` over shape `(300, 500)` on
`make_random_gaussians(100, (500,1000), (0,500), (0,300), (1,5), (1,5),
seed 12345)` plus `make_noise_image((300,500), 'gaussian', mean=5, stddev=2,
seed 12345)`. -/
theorem canned_example_images (g2d : Gaussian2D → ℚ → ℚ → ℚ)
    (wh : Option (List (String × String))) (g : RState) :
    (∃ img noise,
      make_gaussian_sources g2d (100, 200)
          ⟨none, some [50, 70, 150, 210], [160, 25, 150, 90], [70, 40, 25, 60],
           [76 / 5, 51 / 10, 3, 81 / 10], [13 / 5, 5 / 2, 3, 47 / 10],
           [145 * np_pi / 180, 20 * np_pi / 180, 0 * np_pi / 180, 60 * np_pi / 180]⟩
          1 none false false wh
        = .ok (GSOut.plain ⟨img, none⟩)
      ∧ make_noise_image (100, 200) "gaussian" (some 5) (some 5) none (.seed 12345) g
        = .ok ⟨noise, none⟩
      ∧ make_4gaussians_image g2d false false wh g
        = .ok (GSOut.plain ⟨addImages img noise, none⟩))
    ∧ (∃ img noise,
      make_gaussian_sources g2d (300, 500)
          (make_random_gaussians 100 (500, 1000) (0, 500) (0, 300) (1, 5) (1, 5)
            none (.seed 12345) g)
          1 none false false none
        = .ok (GSOut.plain ⟨img, none⟩)
      ∧ make_noise_image (300, 500) "gaussian" (some 5) (some 2) none (.seed 12345) g
        = .ok ⟨noise, none⟩
      ∧ make_100gaussians_image g2d g = .ok (addImages img noise)) := by
  constructor
  · exact ⟨_, _, rfl, rfl, rfl⟩
  · obtain ⟨img, h1⟩ : ∃ img,
        make_gaussian_sources g2d (300, 500)
            (make_random_gaussians 100 (500, 1000) (0, 500) (0, 300) (1, 5) (1, 5)
              none (.seed 12345) g)
            1 none false false none
          = .ok (GSOut.plain ⟨img, none⟩) := ⟨_, rfl⟩
    obtain ⟨noise, h2⟩ : ∃ noise,
        make_noise_image (300, 500) "gaussian" (some 5) (some 2) none (.seed 12345) g
          = .ok ⟨noise, none⟩ := ⟨_, rfl⟩
    refine ⟨img, noise, h1, h2, ?_⟩
    simp only [make_100gaussians_image, h1, h2, GSOut.imgData]
